import Mathlib

/-!
Shallow embedding of the Weavel market-data engine: the trade-classification
loop, trend fallback split, buy/sell TTL-cache phase and symbol validation of
`flask_app/data/marketdata.py`, the retry/backoff wrapper and batched
sentiment scorer of `flask_app/data/sentiment.py`, and the trading calendar of
`flask_app/data/market_calendar.py`.

Conventions: Python float arithmetic is modelled exactly over `ℚ` (the decimal
literals 0.5, 0.3, 0.2, 0.6, 0.4 become the rationals they denote); Python
`int(x)` applied to a nonnegative float is `Int.floor`; Python `//` is integer
division; Python dictionaries are association lists; days are integers with
`d % 7` the weekday (Monday = 0, as in `date.weekday()`); wall-clock instants
are rationals (seconds).
-/

namespace Weavel

/-! ## Trade classification (`MarketData.get_buy_sell_volume`, classification loop) -/

/-- One bar returned by the timesales fetch: `{"price": bar["c"], "volume": bar["v"]}`. -/
structure Trade where
  price : ℚ
  volume : ℕ
deriving DecidableEq

/-- Default used for out-of-range index access (never hit inside the loop). -/
def defaultTrade : Trade := ⟨0, 0⟩

/-- Mutable loop state of the classification loop: `buy_volume`, `sell_volume`,
`recent_buys`, `recent_sells`. -/
structure ClassState where
  buyVolume : ℤ
  sellVolume : ℤ
  recentBuys : ℤ
  recentSells : ℤ
deriving DecidableEq

/-- State before the first loop iteration (all four counters are zero). -/
def initClassState : ClassState := ⟨0, 0, 0, 0⟩

/-- The `momentum_window = 20` constant. -/
def momentumWindow : ℕ := 20

/-- The list of already-seen trades inside the sliding momentum window at
index `i`: indices `max (i - momentumWindow) 0 ≤ j < i` (Nat subtraction
saturates exactly like the Python `range(i - momentum_window, i)` does,
because the recomputation only runs when `momentumWindow ≤ i`). -/
def windowSlice (trades : List Trade) (i : ℕ) : List Trade :=
  (trades.take i).drop (i - momentumWindow)

/-- The tick rule for a buyer-initiated trade: `trade_price >= ask`. -/
def classifiedBuy (ask : ℚ) (t : Trade) : Bool :=
  decide (ask ≤ t.price)

/-- The tick rule for a seller-initiated trade, with the `elif` order of the
loop: `not (trade_price >= ask) and trade_price <= bid`. -/
def classifiedSell (bid ask : ℚ) (t : Trade) : Bool :=
  !(decide (ask ≤ t.price)) && decide (t.price ≤ bid)

/-- The code `recent_buys / total_recent if total_recent > 0 else 0.5`. -/
def momentumBuyRatio (rb rs : ℤ) : ℚ :=
  if 0 < rb + rs then (rb : ℚ) / ((rb : ℚ) + (rs : ℚ)) else 1 / 2

/-- The code `0.6 if trend > 0 else 0.4 if trend < 0 else 0.5`. -/
def trendAdjustment (trend : ℤ) : ℚ :=
  if 0 < trend then 3 / 5 else if trend < 0 then 2 / 5 else 1 / 2

/-- The code `(sentiment_score + 1) / 2`. -/
def sentimentAdjustment (s : ℚ) : ℚ := (s + 1) / 2

/-- The clamped blended buy ratio:
`max(0, min(1, 0.5 * momentum + 0.3 * trend_adj + 0.2 * sentiment_adj))`. -/
def buyRatioOf (rb rs trend : ℤ) (s : ℚ) : ℚ :=
  max 0 (min 1 (1 / 2 * momentumBuyRatio rb rs + 3 / 10 * trendAdjustment trend
      + 1 / 5 * sentimentAdjustment s))

/-- One iteration of the classification loop body at index `i` (the whole
`for i, trade in enumerate(trades)` body, including the mid-spread window
recomputation and the trailing oldest-trade decrement). -/
def classifyStep (bid ask : ℚ) (trend : ℤ) (s : ℚ) (trades : List Trade)
    (st : ClassState) (i : ℕ) : ClassState :=
  let t := (trades[i]?).getD defaultTrade
  let p := t.price
  let v := t.volume
  let st1 :=
    if ask ≤ p then
      { st with buyVolume := st.buyVolume + (v : ℤ), recentBuys := st.recentBuys + 1 }
    else if p ≤ bid then
      { st with sellVolume := st.sellVolume + (v : ℤ), recentSells := st.recentSells + 1 }
    else
      let rb : ℤ :=
        if momentumWindow ≤ i then
          ((windowSlice trades i).countP (fun u => decide (ask ≤ u.price)) : ℤ)
        else st.recentBuys
      let rs : ℤ :=
        if momentumWindow ≤ i then
          ((windowSlice trades i).countP (fun u => decide (u.price ≤ bid)) : ℤ)
        else st.recentSells
      let r := buyRatioOf rb rs trend s
      { buyVolume := st.buyVolume + ⌊(v : ℚ) * r⌋
        sellVolume := st.sellVolume + ⌊(v : ℚ) * (1 - r)⌋
        recentBuys := rb
        recentSells := rs }
  if momentumWindow ≤ i then
    let old := (trades[i - momentumWindow]?).getD defaultTrade
    if ask ≤ old.price then { st1 with recentBuys := st1.recentBuys - 1 }
    else if old.price ≤ bid then { st1 with recentSells := st1.recentSells - 1 }
    else st1
  else st1

/-- The classification loop run over the first `n` trade indices. -/
def classifyFold (bid ask : ℚ) (trend : ℤ) (s : ℚ) (trades : List Trade) (n : ℕ) :
    ClassState :=
  (List.range n).foldl (classifyStep bid ask trend s trades) initClassState

/-- The whole classification loop over the fetched trades of one symbol. -/
def runClassify (bid ask : ℚ) (trend : ℤ) (s : ℚ) (trades : List Trade) : ClassState :=
  classifyFold bid ask trend s trades trades.length

/-- The `recent_buys` value actually consumed by the mid-spread branch at
index `i`: the window recomputation when `momentumWindow ≤ i`, the running
counter otherwise. -/
def usedRecentBuys (bid ask : ℚ) (trend : ℤ) (s : ℚ) (trades : List Trade) (i : ℕ) : ℤ :=
  if momentumWindow ≤ i then
    ((windowSlice trades i).countP (fun u => decide (ask ≤ u.price)) : ℤ)
  else (classifyFold bid ask trend s trades i).recentBuys

/-- The `recent_sells` value actually consumed by the mid-spread branch at
index `i`. -/
def usedRecentSells (bid ask : ℚ) (trend : ℤ) (s : ℚ) (trades : List Trade) (i : ℕ) : ℤ :=
  if momentumWindow ≤ i then
    ((windowSlice trades i).countP (fun u => decide (u.price ≤ bid)) : ℤ)
  else (classifyFold bid ask trend s trades i).recentSells

/-- The clamped buy ratio actually consumed by the mid-spread branch at
index `i` of the classification loop. -/
def usedBuyRatio (bid ask : ℚ) (trend : ℤ) (s : ℚ) (trades : List Trade) (i : ℕ) : ℚ :=
  buyRatioOf (usedRecentBuys bid ask trend s trades i)
    (usedRecentSells bid ask trend s trades i) trend s

/-- Total reported volume of a list of trades. -/
def totalTradeVolume (trades : List Trade) : ℕ :=
  (trades.map Trade.volume).sum

/-- Number of mid-spread trades (neither tick rule fires). -/
def midCount (bid ask : ℚ) (trades : List Trade) : ℕ :=
  trades.countP (fun t => !(decide (ask ≤ t.price)) && !(decide (t.price ≤ bid)))

/-! ## Trend-skewed fallback split (`get_buy_sell_volume`, degradation tiers) -/

/-- The trend-based fallback split of the total reported volume:
`int(total * 0.6)` buy on an uptrend, `int(total * 0.4)` buy on a downtrend,
`total // 2` buy otherwise, remainder to sell in all three branches. -/
def trendSplit (totalVolume : ℕ) (trend : ℤ) : ℤ × ℤ :=
  if 0 < trend then
    let buy := ⌊(totalVolume : ℚ) * (3 / 5)⌋
    (buy, (totalVolume : ℤ) - buy)
  else if trend < 0 then
    let buy := ⌊(totalVolume : ℚ) * (2 / 5)⌋
    (buy, (totalVolume : ℤ) - buy)
  else
    let buy := (totalVolume : ℤ) / 2
    (buy, (totalVolume : ℤ) - (totalVolume : ℤ) / 2)

/-- Per-symbol dispatch of `get_buy_sell_volume` after data resolution:
missing/zero bid or ask, or an empty trade list, falls back to the
trend-skewed split of the reported total volume; otherwise the per-trade
classification loop runs. -/
def classifySymbol (bid ask : ℚ) (trend : ℤ) (s : ℚ) (trades : List Trade)
    (totalVolume : ℕ) : ℤ × ℤ :=
  if bid = 0 ∨ ask = 0 then trendSplit totalVolume trend
  else if trades = [] then trendSplit totalVolume trend
  else ((runClassify bid ask trend s trades).buyVolume,
        (runClassify bid ask trend s trades).sellVolume)

/-! ## Symbol validation (`MarketData._validate_symbol`) -/

/-- Uppercase ASCII letter test, the character class of the ticker pattern. -/
def isUpperAlpha (c : Char) : Bool :=
  decide ('A' ≤ c) && decide (c ≤ 'Z')

/-- The ticker pattern of `_validate_symbol`: one to five uppercase letters,
optionally followed by a dot and one more uppercase letter. -/
def validateSymbol (s : String) : Bool :=
  let cs := s.toList
  let letters := cs.takeWhile isUpperAlpha
  let rest := cs.dropWhile isUpperAlpha
  decide (1 ≤ letters.length) && decide (letters.length ≤ 5) &&
    (match rest with
     | [] => true
     | ['.', c] => isUpperAlpha c
     | _ => false)

/-! ## Buy/sell TTL cache phase (`get_buy_sell_volume`, lines before any fetch) -/

/-- One entry of `self.buy_sell_cache`: buy volume, sell volume and the
insertion timestamp. -/
structure CacheEntry where
  buyVolume : ℤ
  sellVolume : ℤ
  timestamp : ℚ
deriving DecidableEq

/-- The `buy_sell_cache` dictionary, as an association list. -/
abbrev BuySellCache := List (String × CacheEntry)

/-- Dictionary lookup `self.buy_sell_cache[symbol]`. -/
def cacheLookup (cache : BuySellCache) (sym : String) : Option CacheEntry :=
  match cache.find? (fun p => p.1 == sym) with
  | some p => some p.2
  | none => none

/-- The split recorded in the cache for a symbol (zero split when absent;
only consumed at keys known to be present). -/
def cachedSplit (cache : BuySellCache) (sym : String) : ℤ × ℤ :=
  match cacheLookup cache sym with
  | some e => (e.buyVolume, e.sellVolume)
  | none => (0, 0)

/-- The non-refresh cache scan of `get_buy_sell_volume`, producing the cached
results (fresh entries) and the symbols still to fetch, in request order. -/
def cacheScan (cache : BuySellCache) (ttl now : ℚ) : List String →
    List (String × (ℤ × ℤ)) × List String
  | [] => ([], [])
  | sym :: rest =>
    let tail := cacheScan cache ttl now rest
    match cacheLookup cache sym with
    | some e =>
      if now - e.timestamp < ttl then
        ((sym, (e.buyVolume, e.sellVolume)) :: tail.1, tail.2)
      else (tail.1, sym :: tail.2)
    | none => (tail.1, sym :: tail.2)

/-- Result of the pre-fetch phase of `get_buy_sell_volume`: either the call
returns straight from the cache (no upstream request at all), or it proceeds
to the upstream fetch pipeline for the listed symbols. -/
inductive BuySellOutcome where
  | cached (results : List (String × (ℤ × ℤ)))
  | upstream (cachedResults : List (String × (ℤ × ℤ))) (toFetch : List String)
deriving DecidableEq

/-- The pre-fetch phase of `get_buy_sell_volume`: symbol validation, the
cache scan (or the force-refresh eviction), and the early return when every
valid symbol was served from cache.  The second component is the cache as it
stands when the phase ends. -/
def getBuySellCachePhase (cache : BuySellCache) (ttl now : ℚ) (forceRefresh : Bool)
    (symbols : List String) : BuySellOutcome × BuySellCache :=
  let valid := symbols.filter validateSymbol
  if valid = [] then (.cached [], cache)
  else if forceRefresh then
    (.upstream [] valid, cache.filter (fun p => !(valid.contains p.1)))
  else
    let scanned := cacheScan cache ttl now valid
    if scanned.2 = [] then (.cached scanned.1, cache)
    else (.upstream scanned.1 scanned.2, cache)

/-! ## Retry wrapper (`_make_api_request`, tenacity decorator) -/

/-- Outcome of one HTTP attempt: a parsed JSON payload (abstracted to a
number), an `aiohttp.ClientResponseError` with its HTTP status (what
`raise_for_status` raises, 4xx and 5xx alike), or a failure that is not a
`ClientResponseError` (e.g. a JSON deserialization error). -/
inductive ApiOutcome where
  | success (v : ℕ)
  | httpError (status : ℕ)
  | deserializationError
deriving DecidableEq

/-- Result of the decorated `_make_api_request`: a payload, an exception
surfaced directly (the retry predicate did not match), or a
`tenacity.RetryError` after the attempt budget is exhausted. -/
inductive ApiResult where
  | ok (v : ℕ)
  | raised (o : ApiOutcome)
  | retryExhausted (last : ApiOutcome)
deriving DecidableEq

/-- The retry predicate `retry_if_exception_type(aiohttp.ClientResponseError)`:
it matches every HTTP error status and nothing else. -/
def retriedOutcome : ApiOutcome → Bool
  | .httpError _ => true
  | _ => false

/-- The tenacity loop with `stop_after_attempt(3)`: `attempt` is the 1-based
attempt number, the second argument the attempts still allowed (including the
current one); the environment `outcomes` gives each attempt's result.  Returns
the surfaced result and the number of attempts actually made. -/
def runAttempts (outcomes : ℕ → ApiOutcome) (attempt : ℕ) : ℕ → ApiResult × ℕ
  | 0 => (.retryExhausted (outcomes attempt), attempt)
  | remaining + 1 =>
    match outcomes attempt with
    | .success v => (.ok v, attempt)
    | .httpError status =>
      if remaining = 0 then (.retryExhausted (.httpError status), attempt)
      else runAttempts outcomes (attempt + 1) remaining
    | .deserializationError => (.raised .deserializationError, attempt)

/-- The decorated `_make_api_request` under `stop_after_attempt(3)`. -/
def makeApiRequest (outcomes : ℕ → ApiOutcome) : ApiResult × ℕ :=
  runAttempts outcomes 1 3

/-- The sleep inserted by `wait_exponential(multiplier=1, min=1, max=10)`
after the k-th failed attempt. -/
def waitExponentialSleep (attempt : ℕ) : ℚ :=
  max 1 (min 10 ((2 : ℚ) ^ (attempt - 1)))

/-! ## Rate limiter (`_rate_limit`) -/

/-- One pass through `_rate_limit` for one upstream, in logical time: `last`
is the stored `last_request_time`, `now` the `time.time()` reading taken on
entry.  Returns the instant at which the caller leaves the critical section
(after any sleep) and the new stored `last_request_time` — which the source
sets to the pre-sleep reading `now`, not to the post-sleep instant. -/
def rateLimitAcquire (rate last now : ℚ) : ℚ × ℚ :=
  let timeSinceLast := now - last
  let sleepTime := 1 / rate - timeSinceLast
  let finish := if 0 < sleepTime then now + sleepTime else now
  (finish, now)

/-- Completion instants of `n` queued acquisitions on one upstream: the lock
is FIFO and held across the sleep, so each caller reads the clock exactly
when the previous holder releases. -/
def acquireTimes (rate : ℚ) : ℕ → ℚ → ℚ → List ℚ
  | 0, _, _ => []
  | n + 1, last, now =>
    let g := rateLimitAcquire rate last now
    g.1 :: acquireTimes rate n g.2 g.1

/-! ## Batched sentiment scorer (`StockSentiment.get_stock_sentiment_batch`) -/

/-- A news article as consumed by the scorer: headline, summary and the
symbol tags it carries. -/
structure Article where
  headline : String
  summary : String
  symbols : List String
deriving DecidableEq

/-- The text scored for one article: `headline + " " + summary`. -/
def articleText (a : Article) : String :=
  a.headline ++ " " ++ a.summary

/-- Outcome of the single batched news call: an exception (HTTP error, retries
exhausted, or anything else), a payload without usable news, or the article
list. -/
inductive NewsFetch where
  | failure
  | missing
  | ok (articles : List Article)

/-- The grouping loop `news_by_symbol`: each article is appended once per
occurrence of the symbol among its tags, in article order. -/
def articlesFor (sym : String) (articles : List Article) : List Article :=
  articles.flatMap (fun a => List.replicate (a.symbols.count sym) a)

/-- The sentiment-model validation `_validate_symbol` (alphanumeric, or
containing a dash or a dot; empty strings rejected). -/
def sentimentValidSymbol (s : String) : Bool :=
  !(s == "") &&
    (s.toList.all Char.isAlphanum || s.toList.contains '-' || s.toList.contains '.')

/-- The batch validation `_validate_symbols`: non-empty list, all valid. -/
def sentimentValidSymbols (symbols : List String) : Bool :=
  !(symbols == []) && symbols.all sentimentValidSymbol

/-- Per-symbol reduction: average of the analyzer's compound polarity over the
symbol's articles with non-empty stripped text; 0 when the symbol has no
articles or none with text.  `compound` abstracts
`SentimentIntensityAnalyzer.polarity_scores(text)["compound"]`. -/
def symbolScore (compound : String → ℚ) (arts : List Article) : ℚ :=
  if arts = [] then 0
  else
    let scores := (arts.filter (fun a => !((articleText a).trim == ""))).map
      (fun a => compound (articleText a))
    if scores = [] then 0 else scores.sum / scores.length

/-- `get_stock_sentiment_batch`: validation gate, then one batched fetch whose
failure (or empty payload) degrades every requested symbol to the neutral
score 0; on success every requested symbol is scored from its grouped
articles. -/
def getStockSentimentBatch (compound : String → ℚ) (fetch : NewsFetch)
    (symbols : List String) : List (String × ℚ) :=
  if !(sentimentValidSymbols symbols) then symbols.map (fun s => (s, 0))
  else
    match fetch with
    | .failure => symbols.map (fun s => (s, 0))
    | .missing => symbols.map (fun s => (s, 0))
    | .ok articles =>
      symbols.map (fun s => (s, symbolScore compound (articlesFor s articles)))

/-! ## Market calendar (`MarketCalendar`) -/

/-- `is_trading_day`: false on Saturday (weekday 5) and Sunday (weekday 6) and
on configured holidays, true otherwise.  Days are integers with `d % 7` the
Python weekday (Monday = 0); the holiday calendar is a parameter. -/
def isTradingDay (holiday : ℤ → Bool) (d : ℤ) : Bool :=
  if 5 ≤ d % 7 then false else !(holiday d)

/-- `get_previous_trading_day`: the backward walk from `date - 1` to the first
trading day, i.e. `date - 1 - k` for the least offset `k` whose day trades.
The loop terminates exactly when such an offset exists, which the hypothesis
supplies. -/
def getPreviousTradingDay (holiday : ℤ → Bool) (date : ℤ)
    (h : ∃ k : ℕ, isTradingDay holiday (date - 1 - k) = true) : ℤ :=
  date - 1 - Nat.find h

/-! ## Supporting lemmas -/

lemma classifyFold_succ (bid ask : ℚ) (trend : ℤ) (s : ℚ) (trades : List Trade) (n : ℕ) :
    classifyFold bid ask trend s trades (n + 1)
      = classifyStep bid ask trend s trades (classifyFold bid ask trend s trades n) n := by
  unfold classifyFold
  rw [List.range_succ, List.foldl_append]
  rfl

lemma classifyStep_buyBranch (bid ask : ℚ) (trend : ℤ) (s : ℚ) (trades : List Trade)
    (st : ClassState) (i : ℕ) (hb : ask ≤ ((trades[i]?).getD defaultTrade).price) :
    (classifyStep bid ask trend s trades st i).buyVolume
      = st.buyVolume + (((trades[i]?).getD defaultTrade).volume : ℤ) ∧
    (classifyStep bid ask trend s trades st i).sellVolume = st.sellVolume := by
  simp only [classifyStep]
  rw [if_pos hb]
  split_ifs <;> simp

lemma classifyStep_sellBranch (bid ask : ℚ) (trend : ℤ) (s : ℚ) (trades : List Trade)
    (st : ClassState) (i : ℕ) (hb : ¬ ask ≤ ((trades[i]?).getD defaultTrade).price)
    (hs : ((trades[i]?).getD defaultTrade).price ≤ bid) :
    (classifyStep bid ask trend s trades st i).sellVolume
      = st.sellVolume + (((trades[i]?).getD defaultTrade).volume : ℤ) ∧
    (classifyStep bid ask trend s trades st i).buyVolume = st.buyVolume := by
  simp only [classifyStep]
  rw [if_neg hb, if_pos hs]
  split_ifs <;> simp

lemma fold_succ_midBranch (bid ask : ℚ) (trend : ℤ) (s : ℚ) (trades : List Trade) (n : ℕ)
    (hb : ¬ ask ≤ ((trades[n]?).getD defaultTrade).price)
    (hs : ¬ ((trades[n]?).getD defaultTrade).price ≤ bid) :
    (classifyFold bid ask trend s trades (n + 1)).buyVolume
      = (classifyFold bid ask trend s trades n).buyVolume
        + ⌊(((trades[n]?).getD defaultTrade).volume : ℚ) * usedBuyRatio bid ask trend s trades n⌋ ∧
    (classifyFold bid ask trend s trades (n + 1)).sellVolume
      = (classifyFold bid ask trend s trades n).sellVolume
        + ⌊(((trades[n]?).getD defaultTrade).volume : ℚ)
            * (1 - usedBuyRatio bid ask trend s trades n)⌋ := by
  rw [classifyFold_succ]
  simp only [classifyStep, usedBuyRatio, usedRecentBuys, usedRecentSells]
  rw [if_neg hb, if_neg hs]
  split_ifs <;> simp

lemma floor_one_sub_mul (v : ℕ) (r : ℚ) :
    ⌊(v : ℚ) * (1 - r)⌋ = (v : ℤ) - ⌈(v : ℚ) * r⌉ := by
  have h : (v : ℚ) * (1 - r) = ((v : ℤ) : ℚ) + (-((v : ℚ) * r)) := by push_cast; ring
  rw [h, Int.floor_int_add, Int.floor_neg, sub_eq_add_neg]

/-! ## C1 -/

/-- C1 counterexample: the claim predicts that a mid-spread trade with volume
`v` and buy ratio `r` contributes `v - floor(v * r)` to `sellVolume`.  With
bid/ask `(1, 2)`, one mid-spread trade `(3/2, 3)`, neutral trend and
sentiment, the computed ratio is `1/2`, the loop adds `floor(3/2) = 1` to each
side, and the sell side is `1`, not the remainder `3 - 1 = 2`. -/
theorem C1_remainder_counterexample :
    (runClassify 1 2 0 0 [⟨3/2, 3⟩]).buyVolume = 1 ∧
    (runClassify 1 2 0 0 [⟨3/2, 3⟩]).sellVolume = 1 ∧
    (runClassify 1 2 0 0 [⟨3/2, 3⟩]).sellVolume
      ≠ (3 : ℤ) - (runClassify 1 2 0 0 [⟨3/2, 3⟩]).buyVolume := by
  norm_num [runClassify, classifyFold, classifyStep, List.range_succ, initClassState,
    defaultTrade, buyRatioOf, momentumBuyRatio, trendAdjustment, sentimentAdjustment,
    momentumWindow, windowSlice]

/-- C1 amended: every mid-spread trade (bid < price < ask) with volume `v` and
computed clamped buy ratio `r` contributes exactly `floor(v * r)` to
`buyVolume` and exactly `v - ceil(v * r)` — that is, `floor(v * (1 - r))`, the
source's `int(trade_volume * sell_ratio)` — to `sellVolume`; the sell side is
the claimed remainder `v - floor(v * r)` only when `v * r` is an integer. -/
theorem C1_mid_split_amended :
    ∀ (bid ask : ℚ) (trend : ℤ) (s : ℚ) (trades : List Trade) (n : ℕ),
      bid < ((trades[n]?).getD defaultTrade).price →
      ((trades[n]?).getD defaultTrade).price < ask →
      (classifyFold bid ask trend s trades (n + 1)).buyVolume
        = (classifyFold bid ask trend s trades n).buyVolume
          + ⌊(((trades[n]?).getD defaultTrade).volume : ℚ)
              * usedBuyRatio bid ask trend s trades n⌋ ∧
      (classifyFold bid ask trend s trades (n + 1)).sellVolume
        = (classifyFold bid ask trend s trades n).sellVolume
          + ((((trades[n]?).getD defaultTrade).volume : ℤ)
              - ⌈(((trades[n]?).getD defaultTrade).volume : ℚ)
                  * usedBuyRatio bid ask trend s trades n⌉) := by
  intro bid ask trend s trades n hlo hhi
  obtain ⟨h1, h2⟩ := fold_succ_midBranch bid ask trend s trades n
    (not_le.mpr hhi) (not_le.mpr hlo)
  exact ⟨h1, by rw [h2, floor_one_sub_mul]⟩

/-- C1 amended, witnessed at the counterexample input (volume 3, ratio 1/2). -/
theorem C1_mid_split_amended_witness :
    (classifyFold 1 2 0 0 [⟨3/2, 3⟩] 1).buyVolume
      = (classifyFold 1 2 0 0 [⟨3/2, 3⟩] 0).buyVolume
        + ⌊((3 : ℕ) : ℚ) * usedBuyRatio 1 2 0 0 [⟨3/2, 3⟩] 0⌋ ∧
    (classifyFold 1 2 0 0 [⟨3/2, 3⟩] 1).sellVolume
      = (classifyFold 1 2 0 0 [⟨3/2, 3⟩] 0).sellVolume
        + (((3 : ℕ) : ℤ) - ⌈((3 : ℕ) : ℚ) * usedBuyRatio 1 2 0 0 [⟨3/2, 3⟩] 0⌉) :=
  C1_mid_split_amended 1 2 0 0 [⟨3/2, 3⟩] 0 (show (1 : ℚ) < 3/2 by norm_num)
    (show (3/2 : ℚ) < 2 by norm_num)

/-! ## C2 -/

/-- C2: a trade at or above the ask contributes its whole volume to
`buyVolume` and nothing to `sellVolume`; with an uncrossed quote
(bid < ask), a trade at or below the bid contributes its whole volume to
`sellVolume` and nothing to `buyVolume`; and on the AAPL scenario —
bid/ask `(189.95, 190.05)`, bars `[(190.10, 100), (189.90, 50),
(190.20, 200)]` — the split is buy 300, sell 50, total 350. -/
theorem C2_tick_rule :
    (∀ (bid ask : ℚ) (trend : ℤ) (s : ℚ) (trades : List Trade) (st : ClassState) (i : ℕ),
      ask ≤ ((trades[i]?).getD defaultTrade).price →
        (classifyStep bid ask trend s trades st i).buyVolume
          = st.buyVolume + (((trades[i]?).getD defaultTrade).volume : ℤ) ∧
        (classifyStep bid ask trend s trades st i).sellVolume = st.sellVolume) ∧
    (∀ (bid ask : ℚ) (trend : ℤ) (s : ℚ) (trades : List Trade) (st : ClassState) (i : ℕ),
      bid < ask → ((trades[i]?).getD defaultTrade).price ≤ bid →
        (classifyStep bid ask trend s trades st i).sellVolume
          = st.sellVolume + (((trades[i]?).getD defaultTrade).volume : ℤ) ∧
        (classifyStep bid ask trend s trades st i).buyVolume = st.buyVolume) ∧
    ((runClassify (18995/100) (19005/100) 0 0
        [⟨19010/100, 100⟩, ⟨18990/100, 50⟩, ⟨19020/100, 200⟩]).buyVolume = 300 ∧
      (runClassify (18995/100) (19005/100) 0 0
        [⟨19010/100, 100⟩, ⟨18990/100, 50⟩, ⟨19020/100, 200⟩]).sellVolume = 50 ∧
      (runClassify (18995/100) (19005/100) 0 0
          [⟨19010/100, 100⟩, ⟨18990/100, 50⟩, ⟨19020/100, 200⟩]).buyVolume
        + (runClassify (18995/100) (19005/100) 0 0
            [⟨19010/100, 100⟩, ⟨18990/100, 50⟩, ⟨19020/100, 200⟩]).sellVolume = 350) := by
  refine ⟨?_, ?_, ?_⟩
  · intro bid ask trend s trades st i hb
    exact classifyStep_buyBranch bid ask trend s trades st i hb
  · intro bid ask trend s trades st i hba hs
    have hb : ¬ ask ≤ ((trades[i]?).getD defaultTrade).price :=
      not_le.mpr (lt_of_le_of_lt hs hba)
    exact classifyStep_sellBranch bid ask trend s trades st i hb hs
  · norm_num [runClassify, classifyFold, classifyStep, List.range_succ, initClassState,
      defaultTrade, buyRatioOf, momentumBuyRatio, trendAdjustment, sentimentAdjustment,
      momentumWindow, windowSlice]

/-- C2, witnessed: a concrete at-ask trade contributes wholly to the buy side. -/
theorem C2_tick_rule_witness :
    (classifyStep 1 2 0 0 [⟨5, 7⟩] initClassState 0).buyVolume
      = initClassState.buyVolume + ((7 : ℕ) : ℤ) ∧
    (classifyStep 1 2 0 0 [⟨5, 7⟩] initClassState 0).sellVolume
      = initClassState.sellVolume :=
  C2_tick_rule.1 1 2 0 0 [⟨5, 7⟩] initClassState 0 (show (2 : ℚ) ≤ 5 by norm_num)

/-! ## C3 -/

/-- C3: whenever a symbol falls back to the trend-skewed split (zero/missing
bid or ask, or no trade bars), the result is exactly `trendSplit`, whose buy
side is `floor(total * 0.6)` on an uptrend, `floor(total * 0.4)` on a
downtrend and `total // 2` otherwise, with the remainder always assigned to
the sell side so that the two sides sum to the total exactly. -/
theorem C3_trend_fallback :
    ∀ (bid ask : ℚ) (trend : ℤ) (s : ℚ) (trades : List Trade) (totalVolume : ℕ),
      bid = 0 ∨ ask = 0 ∨ trades = [] →
      classifySymbol bid ask trend s trades totalVolume = trendSplit totalVolume trend ∧
      (trendSplit totalVolume trend).1 + (trendSplit totalVolume trend).2
        = ((totalVolume : ℕ) : ℤ) ∧
      (0 < trend → (trendSplit totalVolume trend).1 = ⌊((totalVolume : ℕ) : ℚ) * (3 / 5)⌋) ∧
      (trend < 0 → (trendSplit totalVolume trend).1 = ⌊((totalVolume : ℕ) : ℚ) * (2 / 5)⌋) ∧
      (trend = 0 → (trendSplit totalVolume trend).1 = ((totalVolume : ℕ) : ℤ) / 2) := by
  intro bid ask trend s trades totalVolume h
  refine ⟨?_, ?_, ?_, ?_, ?_⟩
  · unfold classifySymbol
    rcases h with h | h | h <;> simp [h]
  · unfold trendSplit
    split_ifs <;> simp
  · intro ht
    simp [trendSplit, ht]
  · intro ht
    have h1 : ¬ (0 : ℤ) < trend := by omega
    simp [trendSplit, h1, ht]
  · intro ht
    have h1 : ¬ (0 : ℤ) < trend := by omega
    have h2 : ¬ trend < 0 := by omega
    simp [trendSplit, h1, h2]

/-- C3, witnessed at a missing bid with an uptrend and odd total volume 101. -/
theorem C3_trend_fallback_witness :
    classifySymbol 0 1 1 0 [] 101 = trendSplit 101 1 ∧
    (trendSplit 101 1).1 + (trendSplit 101 1).2 = ((101 : ℕ) : ℤ) ∧
    ((0 : ℤ) < 1 → (trendSplit 101 1).1 = ⌊((101 : ℕ) : ℚ) * (3 / 5)⌋) ∧
    ((1 : ℤ) < 0 → (trendSplit 101 1).1 = ⌊((101 : ℕ) : ℚ) * (2 / 5)⌋) ∧
    ((1 : ℤ) = 0 → (trendSplit 101 1).1 = ((101 : ℕ) : ℤ) / 2) :=
  C3_trend_fallback 0 1 1 0 [] 101 (Or.inl rfl)

/-! ## C4 -/

lemma cacheScan_all_fresh (cache : BuySellCache) (ttl now : ℚ) :
    ∀ syms : List String,
      (∀ s ∈ syms, ∃ e, cacheLookup cache s = some e ∧ now - e.timestamp < ttl) →
      cacheScan cache ttl now syms = (syms.map (fun s => (s, cachedSplit cache s)), []) := by
  intro syms
  induction syms with
  | nil => intro _; rfl
  | cons s rest ih =>
    intro h
    obtain ⟨e, he, hf⟩ := h s (by simp)
    have hrest := ih (fun x hx => h x (by simp [hx]))
    simp [cacheScan, he, hf, hrest, cachedSplit]

/-- C4: with `forceRefresh = false` and a fresh cache entry for every
requested valid symbol, `get_buy_sell_volume` answers entirely from the
cache (no upstream request is issued), returns exactly the cached splits in
request order, and leaves the cache untouched; a second call at any other
instant within the TTL returns the identical outcome. -/
theorem C4_cache_idempotence :
    ∀ (cache : BuySellCache) (ttl now now2 : ℚ) (symbols : List String),
      (∀ s ∈ symbols.filter validateSymbol,
        ∃ e, cacheLookup cache s = some e ∧ now - e.timestamp < ttl) →
      (∀ s ∈ symbols.filter validateSymbol,
        ∃ e, cacheLookup cache s = some e ∧ now2 - e.timestamp < ttl) →
      getBuySellCachePhase cache ttl now false symbols
        = (.cached ((symbols.filter validateSymbol).map
            (fun s => (s, cachedSplit cache s))), cache) ∧
      getBuySellCachePhase cache ttl now false symbols
        = getBuySellCachePhase cache ttl now2 false symbols := by
  intro cache ttl now now2 symbols h1 h2
  have key : ∀ t : ℚ,
      (∀ s ∈ symbols.filter validateSymbol,
        ∃ e, cacheLookup cache s = some e ∧ t - e.timestamp < ttl) →
      getBuySellCachePhase cache ttl t false symbols
        = (.cached ((symbols.filter validateSymbol).map
            (fun s => (s, cachedSplit cache s))), cache) := by
    intro t ht
    unfold getBuySellCachePhase
    by_cases hv : symbols.filter validateSymbol = []
    · simp [hv]
    · rw [if_neg hv, if_neg (Bool.false_ne_true)]
      rw [cacheScan_all_fresh cache ttl t (symbols.filter validateSymbol) ht]
      simp
  exact ⟨key now h1, (key now h1).trans (key now2 h2).symm⟩

/-- C4, witnessed on a one-entry cache probed at two instants inside the TTL. -/
theorem C4_cache_idempotence_witness :
    getBuySellCachePhase [("AAPL", ⟨100, 50, 0⟩)] 10 5 false ["AAPL"]
      = (.cached ((["AAPL"].filter validateSymbol).map
          (fun s => (s, cachedSplit [("AAPL", ⟨100, 50, 0⟩)] s))),
         [("AAPL", ⟨100, 50, 0⟩)]) ∧
    getBuySellCachePhase [("AAPL", ⟨100, 50, 0⟩)] 10 5 false ["AAPL"]
      = getBuySellCachePhase [("AAPL", ⟨100, 50, 0⟩)] 10 9 false ["AAPL"] := by
  have fresh : ∀ t : ℚ, t - (0 : ℚ) < 10 →
      ∀ s ∈ (["AAPL"] : List String).filter validateSymbol,
        ∃ e : CacheEntry, cacheLookup [("AAPL", ⟨100, 50, 0⟩)] s = some e ∧
          t - e.timestamp < 10 := by
    intro t htl s hsm
    have hs : s = "AAPL" := by
      simpa using (List.mem_filter.mp hsm).1
    subst hs
    exact ⟨⟨100, 50, 0⟩, rfl, htl⟩
  exact C4_cache_idempotence [("AAPL", ⟨100, 50, 0⟩)] 10 5 9 ["AAPL"]
    (fresh 5 (by norm_num)) (fresh 9 (by norm_num))

/-! ## C5 -/

lemma runAttempts_snd_ge (outcomes : ℕ → ApiOutcome) :
    ∀ (rem a : ℕ), a ≤ (runAttempts outcomes a rem).2 := by
  intro rem
  induction rem with
  | zero => intro a; simp [runAttempts]
  | succ r ih =>
    intro a
    unfold runAttempts
    cases h : outcomes a with
    | success v => simp
    | httpError status =>
      by_cases hr : r = 0
      · simp [hr]
      · simp only [hr, if_false]
        exact le_trans (Nat.le_succ a) (ih (a + 1))
    | deserializationError => simp

lemma runAttempts_snd_le (outcomes : ℕ → ApiOutcome) :
    ∀ (rem a : ℕ), (runAttempts outcomes a (rem + 1)).2 ≤ a + rem := by
  intro rem
  induction rem with
  | zero =>
    intro a
    unfold runAttempts
    cases h : outcomes a <;> simp
  | succ r ih =>
    intro a
    unfold runAttempts
    cases h : outcomes a with
    | success v => simp
    | httpError status =>
      simp only [Nat.succ_ne_zero, if_false]
      exact le_trans (ih (a + 1)) (by omega)
    | deserializationError => simp [Nat.le_add_right]

/-- C5 counterexample: the claim says a 4xx response is surfaced immediately
with no retry, but the retry predicate matches every
`aiohttp.ClientResponseError`; on an environment that always answers
HTTP 404, the wrapper makes all 3 attempts and then surfaces a
`tenacity.RetryError`, not a first-attempt failure. -/
theorem C5_retry_counterexample :
    makeApiRequest (fun _ => .httpError 404)
      = (.retryExhausted (.httpError 404), 3) ∧
    (makeApiRequest (fun _ => .httpError 404)).2 ≠ 1 := by
  constructor
  · rfl
  · decide

/-- C5 amended: the wrapper retries every `ClientResponseError` — any HTTP
error status, 4xx and 5xx alike — up to 3 total attempts, with
`wait_exponential(multiplier=1, min=1, max=10)` sleeps (1s after the first
failed attempt, 2s after the second, always within [1s, 10s]); only failures
that are not `ClientResponseError` (e.g. JSON deserialization errors) are
surfaced immediately on the first attempt, as is a first-attempt success. -/
theorem C5_retry_amended :
    (∀ outcomes : ℕ → ApiOutcome, (makeApiRequest outcomes).2 ≤ 3) ∧
    (∀ (outcomes : ℕ → ApiOutcome) (status : ℕ),
      outcomes 1 = .httpError status → 2 ≤ (makeApiRequest outcomes).2) ∧
    (∀ outcomes : ℕ → ApiOutcome,
      outcomes 1 = .deserializationError →
        makeApiRequest outcomes = (.raised .deserializationError, 1)) ∧
    (∀ (outcomes : ℕ → ApiOutcome) (v : ℕ),
      outcomes 1 = .success v → makeApiRequest outcomes = (.ok v, 1)) ∧
    waitExponentialSleep 1 = 1 ∧ waitExponentialSleep 2 = 2 ∧
    (∀ k : ℕ, 1 ≤ waitExponentialSleep k ∧ waitExponentialSleep k ≤ 10) := by
  refine ⟨?_, ?_, ?_, ?_, ?_, ?_, ?_⟩
  · intro outcomes
    have h := runAttempts_snd_le outcomes 2 1
    simpa [makeApiRequest] using h
  · intro outcomes status h
    unfold makeApiRequest runAttempts
    rw [h]
    simp only [Nat.succ_ne_zero, if_false]
    exact runAttempts_snd_ge outcomes 2 2
  · intro outcomes h
    unfold makeApiRequest runAttempts
    rw [h]
  · intro outcomes v h
    unfold makeApiRequest runAttempts
    rw [h]
  · norm_num [waitExponentialSleep]
  · norm_num [waitExponentialSleep]
  · intro k
    constructor
    · exact le_max_left 1 _
    · exact max_le (by norm_num) (min_le_left 10 _)

/-- C5 amended, witnessed: a first-attempt 500 forces a second attempt, a
first-attempt deserialization failure surfaces at once, and the first sleep
is 1 second. -/
theorem C5_retry_amended_witness :
    2 ≤ (makeApiRequest (fun _ => .httpError 500)).2 ∧
    makeApiRequest (fun _ => .deserializationError)
      = (.raised .deserializationError, 1) ∧
    waitExponentialSleep 1 = 1 :=
  ⟨C5_retry_amended.2.1 (fun _ => .httpError 500) 500 rfl,
   C5_retry_amended.2.2.1 (fun _ => .deserializationError) rfl,
   C5_retry_amended.2.2.2.2.1⟩

/-! ## C6 -/

lemma acquireTimes_succ (rate : ℚ) (n : ℕ) (last now : ℚ) :
    acquireTimes rate (n + 1) last now
      = (rateLimitAcquire rate last now).1
          :: acquireTimes rate n (rateLimitAcquire rate last now).2
              (rateLimitAcquire rate last now).1 := rfl

/-- C6: the rate limiter stores the pre-sleep clock reading as
`last_request_time`, so with the Tradier rate of 2 requests/second five
back-to-back acquisitions complete at t = 0, 0.5, 0.5, 1.0, 1.0 seconds:
consecutive grants 2 and 3 are 0 seconds apart (the claim requires at least
1/rate = 0.5s) and the 5th completes 1.0s after the 1st (the claim requires
at least 2.0s). -/
theorem C6_rate_limiter_bug :
    acquireTimes 2 5 (-100) 0 = [0, 1/2, 1/2, 1, 1] ∧
    (acquireTimes 2 5 (-100) 0).getD 4 0 - (acquireTimes 2 5 (-100) 0).getD 0 0 < 2 ∧
    (acquireTimes 2 5 (-100) 0).getD 2 0 - (acquireTimes 2 5 (-100) 0).getD 1 0 < 1/2 := by
  have e : acquireTimes 2 5 (-100) 0 = [0, 1/2, 1/2, 1, 1] := by
    norm_num [acquireTimes_succ, rateLimitAcquire,
      show (5 : ℕ) = 4 + 1 from rfl, show (4 : ℕ) = 3 + 1 from rfl,
      show (3 : ℕ) = 2 + 1 from rfl, show (2 : ℕ) = 1 + 1 from rfl,
      show acquireTimes 2 0 = fun _ _ => [] from rfl]
  refine ⟨e, ?_, ?_⟩ <;> rw [e] <;> norm_num

/-! ## C9 -/

lemma symbolScore_of_all_blank (compound : String → ℚ) (arts : List Article)
    (h : ∀ a ∈ arts, (articleText a).trim = "") : symbolScore compound arts = 0 := by
  unfold symbolScore
  by_cases h0 : arts = []
  · simp [h0]
  · rw [if_neg h0]
    have hf : arts.filter (fun a => !((articleText a).trim == "")) = [] := by
      rw [List.filter_eq_nil_iff]
      intro a ha
      simp [h a ha]
    simp [hf]

/-- C9: the batched sentiment scorer is total — it returns a score for every
requested symbol in request order and raises nothing (it is a function into a
score list, every branch covered); when the batched news call fails it maps
every requested symbol to neutral 0; a symbol with no matching articles, or
whose matching articles all have blank headline+summary text, also scores
neutral 0. -/
theorem C9_sentiment_total :
    (∀ (compound : String → ℚ) (fetch : NewsFetch) (symbols : List String),
      (getStockSentimentBatch compound fetch symbols).map Prod.fst = symbols) ∧
    (∀ (compound : String → ℚ) (symbols : List String),
      getStockSentimentBatch compound .failure symbols
        = symbols.map (fun s => (s, 0))) ∧
    (∀ (compound : String → ℚ) (articles : List Article) (symbols : List String)
        (s : String), s ∈ symbols → articlesFor s articles = [] →
      (s, (0 : ℚ)) ∈ getStockSentimentBatch compound (.ok articles) symbols) ∧
    (∀ (compound : String → ℚ) (articles : List Article) (symbols : List String)
        (s : String), s ∈ symbols →
      (∀ a ∈ articlesFor s articles, (articleText a).trim = "") →
      (s, (0 : ℚ)) ∈ getStockSentimentBatch compound (.ok articles) symbols) := by
  refine ⟨?_, ?_, ?_, ?_⟩
  · intro compound fetch symbols
    have key : ∀ f : String → ℚ,
        (symbols.map (fun s => (s, f s))).map Prod.fst = symbols := by
      intro f
      rw [List.map_map]
      exact List.map_id symbols
    unfold getStockSentimentBatch
    cases hv : sentimentValidSymbols symbols
    · simp only [Bool.not_false, if_pos]
      exact key (fun _ => 0)
    · simp only [Bool.not_true, Bool.false_eq_true, if_false]
      cases fetch
      · exact key (fun _ => 0)
      · exact key (fun _ => 0)
      · exact key _
  · intro compound symbols
    unfold getStockSentimentBatch
    cases hv : sentimentValidSymbols symbols <;> simp
  · intro compound articles symbols s hs hempty
    unfold getStockSentimentBatch
    cases hv : sentimentValidSymbols symbols
    · simp only [Bool.not_false, if_pos]
      exact List.mem_map.mpr ⟨s, hs, rfl⟩
    · simp only [Bool.not_true, Bool.false_eq_true, if_false]
      refine List.mem_map.mpr ⟨s, hs, ?_⟩
      simp [symbolScore, hempty]
  · intro compound articles symbols s hs hblank
    unfold getStockSentimentBatch
    cases hv : sentimentValidSymbols symbols
    · simp only [Bool.not_false, if_pos]
      exact List.mem_map.mpr ⟨s, hs, rfl⟩
    · simp only [Bool.not_true, Bool.false_eq_true, if_false]
      refine List.mem_map.mpr ⟨s, hs, ?_⟩
      rw [symbolScore_of_all_blank compound _ hblank]

/-- C9, witnessed: a failed batch maps both requested symbols to 0, and a
symbol with no matching articles scores 0. -/
theorem C9_sentiment_total_witness :
    getStockSentimentBatch (fun _ => 1) .failure ["AAPL", "MSFT"]
      = [("AAPL", 0), ("MSFT", 0)] ∧
    ("AAPL", (0 : ℚ)) ∈ getStockSentimentBatch (fun _ => 1)
      (.ok [⟨"h", "s", ["TSLA"]⟩]) ["AAPL"] := by
  constructor
  · exact C9_sentiment_total.2.1 (fun _ => 1) ["AAPL", "MSFT"]
  · exact C9_sentiment_total.2.2.1 (fun _ => 1) [⟨"h", "s", ["TSLA"]⟩] ["AAPL"] "AAPL"
      (by simp) (by simp [articlesFor])

/-! ## C10 -/

/-- C10: `is_trading_day` is false on every Saturday (weekday 5) and Sunday
(weekday 6) and on every configured holiday, and true on every other day; and
whenever some trading day exists strictly before the given date (the
termination precondition of the backward walk), `get_previous_trading_day`
returns a trading day strictly before the date with no trading day strictly
between the two — the most recent previous trading day. -/
theorem C10_calendar :
    (∀ (holiday : ℤ → Bool) (d : ℤ), d % 7 = 5 ∨ d % 7 = 6 →
      isTradingDay holiday d = false) ∧
    (∀ (holiday : ℤ → Bool) (d : ℤ), holiday d = true →
      isTradingDay holiday d = false) ∧
    (∀ (holiday : ℤ → Bool) (d : ℤ), d % 7 < 5 → holiday d = false →
      isTradingDay holiday d = true) ∧
    (∀ (holiday : ℤ → Bool) (date : ℤ)
        (h : ∃ k : ℕ, isTradingDay holiday (date - 1 - k) = true),
      getPreviousTradingDay holiday date h < date ∧
      isTradingDay holiday (getPreviousTradingDay holiday date h) = true ∧
      ∀ d : ℤ, getPreviousTradingDay holiday date h < d → d < date →
        isTradingDay holiday d = false) := by
  refine ⟨?_, ?_, ?_, ?_⟩
  · intro holiday d hd
    unfold isTradingDay
    rw [if_pos (by omega)]
  · intro holiday d hd
    unfold isTradingDay
    split_ifs with hw
    · rfl
    · simp [hd]
  · intro holiday d hw hh
    unfold isTradingDay
    rw [if_neg (by omega)]
    simp [hh]
  · intro holiday date h
    unfold getPreviousTradingDay
    refine ⟨by omega, Nat.find_spec h, ?_⟩
    intro d hd1 hd2
    have hj : ((date - 1 - d).toNat : ℤ) = date - 1 - d := by omega
    have hjlt : (date - 1 - d).toNat < Nat.find h := by omega
    have := Nat.find_min h hjlt
    have hdj : date - 1 - ((date - 1 - d).toNat : ℤ) = d := by omega
    rw [hdj] at this
    exact Bool.not_eq_true _ ▸ (by simpa using this)

/-- C10, witnessed at day numbers with Monday = 0: day 12 is a Saturday, day
0 a holiday, day 0 otherwise a trading day, and the previous trading day
before Monday 7 is Friday, strictly earlier. -/
theorem C10_calendar_witness :
    isTradingDay (fun _ => false) 12 = false ∧
    isTradingDay (fun d => d == 0) 0 = false ∧
    isTradingDay (fun _ => false) 0 = true ∧
    getPreviousTradingDay (fun _ => false) 7 ⟨2, by decide⟩ < 7 ∧
    isTradingDay (fun _ => false)
      (getPreviousTradingDay (fun _ => false) 7 ⟨2, by decide⟩) = true := by
  refine ⟨C10_calendar.1 (fun _ => false) 12 (Or.inl (by decide)),
    C10_calendar.2.1 (fun d => d == 0) 0 (by decide),
    C10_calendar.2.2.1 (fun _ => false) 0 (by decide) rfl, ?_, ?_⟩
  · exact (C10_calendar.2.2.2 (fun _ => false) 7 ⟨2, by decide⟩).1
  · exact (C10_calendar.2.2.2 (fun _ => false) 7 ⟨2, by decide⟩).2.1

/-! ## C7 -/

lemma buyRatioOf_bounds (rb rs trend : ℤ) (s : ℚ) :
    0 ≤ buyRatioOf rb rs trend s ∧ buyRatioOf rb rs trend s ≤ 1 :=
  ⟨le_max_left 0 _, max_le (by norm_num) (min_le_left 1 _)⟩

lemma usedBuyRatio_bounds (bid ask : ℚ) (trend : ℤ) (s : ℚ) (trades : List Trade) (n : ℕ) :
    0 ≤ usedBuyRatio bid ask trend s trades n ∧ usedBuyRatio bid ask trend s trades n ≤ 1 := by
  unfold usedBuyRatio
  exact buyRatioOf_bounds _ _ _ _

lemma floor_mul_ratio_nonneg (v : ℕ) (r : ℚ) (h : 0 ≤ r) : 0 ≤ ⌊(v : ℚ) * r⌋ :=
  Int.floor_nonneg.mpr (mul_nonneg (Nat.cast_nonneg v) h)

lemma floor_split_le (v : ℕ) (r : ℚ) :
    ⌊(v : ℚ) * r⌋ + ⌊(v : ℚ) * (1 - r)⌋ ≤ (v : ℤ) := by
  have h1 : ((⌊(v : ℚ) * r⌋ : ℤ) : ℚ) ≤ (v : ℚ) * r := Int.floor_le _
  have h2 : ((⌊(v : ℚ) * (1 - r)⌋ : ℤ) : ℚ) ≤ (v : ℚ) * (1 - r) := Int.floor_le _
  have hsum : (v : ℚ) * r + (v : ℚ) * (1 - r) = (v : ℚ) := by ring
  have : ((⌊(v : ℚ) * r⌋ + ⌊(v : ℚ) * (1 - r)⌋ : ℤ) : ℚ) ≤ ((v : ℤ) : ℚ) := by
    push_cast
    linarith
  exact_mod_cast this

lemma floor_split_ge (v : ℕ) (r : ℚ) :
    (v : ℤ) - 1 ≤ ⌊(v : ℚ) * r⌋ + ⌊(v : ℚ) * (1 - r)⌋ := by
  have h1 : (v : ℚ) * r - 1 < ⌊(v : ℚ) * r⌋ := Int.sub_one_lt_floor _
  have h2 : (v : ℚ) * (1 - r) - 1 < ⌊(v : ℚ) * (1 - r)⌋ := Int.sub_one_lt_floor _
  have hsum : (v : ℚ) * r + (v : ℚ) * (1 - r) = (v : ℚ) := by ring
  have : ((v : ℤ) : ℚ) - 2 < ((⌊(v : ℚ) * r⌋ + ⌊(v : ℚ) * (1 - r)⌋ : ℤ) : ℚ) := by
    push_cast
    linarith
  have hz : (v : ℤ) - 2 < ⌊(v : ℚ) * r⌋ + ⌊(v : ℚ) * (1 - r)⌋ := by exact_mod_cast this
  omega

lemma take_succ_getD (trades : List Trade) (n : ℕ) (hn : n < trades.length) :
    trades.take (n + 1) = trades.take n ++ [(trades[n]?).getD defaultTrade] := by
  rw [List.take_succ]
  congr 1
  rw [List.getElem?_eq_getElem hn]
  simp [List.getD_eq_getElem?_getD, List.getElem?_eq_getElem hn]

lemma volume_invariant (bid ask : ℚ) (trend : ℤ) (s : ℚ) (trades : List Trade) :
    ∀ n, n ≤ trades.length →
      0 ≤ (classifyFold bid ask trend s trades n).buyVolume ∧
      0 ≤ (classifyFold bid ask trend s trades n).sellVolume ∧
      (totalTradeVolume (trades.take n) : ℤ) - (midCount bid ask (trades.take n) : ℤ)
        ≤ (classifyFold bid ask trend s trades n).buyVolume
          + (classifyFold bid ask trend s trades n).sellVolume ∧
      (classifyFold bid ask trend s trades n).buyVolume
          + (classifyFold bid ask trend s trades n).sellVolume
        ≤ (totalTradeVolume (trades.take n) : ℤ) := by
  intro n
  induction n with
  | zero =>
    intro _
    simp [classifyFold, initClassState, totalTradeVolume, midCount]
  | succ n ih =>
    intro h
    have hn : n < trades.length := by omega
    obtain ⟨ihb, ihs, ihlo, ihhi⟩ := ih (by omega)
    have htake := take_succ_getD trades n hn
    have htotN : totalTradeVolume (trades.take (n + 1))
        = totalTradeVolume (trades.take n) + ((trades[n]?).getD defaultTrade).volume := by
      rw [htake]
      simp [totalTradeVolume]
    by_cases hb : ask ≤ ((trades[n]?).getD defaultTrade).price
    · obtain ⟨e1, e2⟩ := classifyStep_buyBranch bid ask trend s trades
        (classifyFold bid ask trend s trades n) n hb
      have hbt : decide (ask ≤ ((trades[n]?).getD defaultTrade).price) = true :=
        decide_eq_true hb
      have hmidN : midCount bid ask (trades.take (n + 1))
          = midCount bid ask (trades.take n) := by
        rw [htake]
        unfold midCount
        rw [List.countP_append]
        simp only [List.countP_cons, List.countP_nil, hbt, Bool.not_true,
          Bool.false_and, Bool.false_eq_true, if_false, Nat.add_zero]
      rw [classifyFold_succ, e1, e2, htotN, hmidN]
      push_cast
      omega
    · by_cases hs : ((trades[n]?).getD defaultTrade).price ≤ bid
      · obtain ⟨e1, e2⟩ := classifyStep_sellBranch bid ask trend s trades
          (classifyFold bid ask trend s trades n) n hb hs
        have hst : decide (((trades[n]?).getD defaultTrade).price ≤ bid) = true :=
          decide_eq_true hs
        have hmidN : midCount bid ask (trades.take (n + 1))
            = midCount bid ask (trades.take n) := by
          rw [htake]
          unfold midCount
          rw [List.countP_append]
          simp only [List.countP_cons, List.countP_nil, hst, Bool.not_true,
            Bool.and_false, Bool.false_eq_true, if_false, Nat.add_zero]
        rw [classifyFold_succ, e1, e2, htotN, hmidN]
        push_cast
        omega
      · obtain ⟨e1, e2⟩ := fold_succ_midBranch bid ask trend s trades n hb hs
        have hbt : decide (ask ≤ ((trades[n]?).getD defaultTrade).price) = false :=
          decide_eq_false hb
        have hst : decide (((trades[n]?).getD defaultTrade).price ≤ bid) = false :=
          decide_eq_false hs
        have hmidN : midCount bid ask (trades.take (n + 1))
            = midCount bid ask (trades.take n) + 1 := by
          rw [htake]
          unfold midCount
          rw [List.countP_append]
          simp only [List.countP_cons, List.countP_nil, hbt, hst, Bool.not_false,
            Bool.and_true, if_true, Nat.zero_add]
        obtain ⟨hr0, hr1⟩ := usedBuyRatio_bounds bid ask trend s trades n
        have hf1 := floor_mul_ratio_nonneg ((trades[n]?).getD defaultTrade).volume _ hr0
        have hf2 := floor_mul_ratio_nonneg ((trades[n]?).getD defaultTrade).volume
          (1 - usedBuyRatio bid ask trend s trades n) (by linarith)
        have hle := floor_split_le ((trades[n]?).getD defaultTrade).volume
          (usedBuyRatio bid ask trend s trades n)
        have hge := floor_split_ge ((trades[n]?).getD defaultTrade).volume
          (usedBuyRatio bid ask trend s trades n)
        rw [e1, e2, htotN, hmidN]
        push_cast
        omega

/-- C7: on the per-trade tick path the returned buy and sell volumes are
non-negative and their sum lies between the total reported trade volume minus
the number of mid-spread trades and the total itself — integer truncation
loses at most one unit per mid-spread trade. -/
theorem C7_volume_bounds :
    ∀ (bid ask : ℚ) (trend : ℤ) (s : ℚ) (trades : List Trade),
      0 ≤ (runClassify bid ask trend s trades).buyVolume ∧
      0 ≤ (runClassify bid ask trend s trades).sellVolume ∧
      (totalTradeVolume trades : ℤ) - (midCount bid ask trades : ℤ)
        ≤ (runClassify bid ask trend s trades).buyVolume
          + (runClassify bid ask trend s trades).sellVolume ∧
      (runClassify bid ask trend s trades).buyVolume
          + (runClassify bid ask trend s trades).sellVolume
        ≤ (totalTradeVolume trades : ℤ) := by
  intro bid ask trend s trades
  have h := volume_invariant bid ask trend s trades trades.length le_rfl
  simpa [runClassify, List.take_length] using h

/-! ## C8 -/

lemma windowSlice_succ_small (trades : List Trade) (n : ℕ) (hn : n < trades.length)
    (hW : n < momentumWindow) :
    windowSlice trades (n + 1) = windowSlice trades n ++ [(trades[n]?).getD defaultTrade] := by
  unfold windowSlice
  have h1 : n - momentumWindow = 0 := by omega
  have h2 : n + 1 - momentumWindow = 0 := by omega
  rw [h1, h2, List.drop_zero, List.drop_zero, take_succ_getD trades n hn]

lemma windowSlice_succ_big_head (trades : List Trade) (n : ℕ) (hn : n < trades.length)
    (hW : momentumWindow ≤ n) :
    windowSlice trades n
      = (trades[n - momentumWindow]?).getD defaultTrade
          :: (trades.take n).drop (n - momentumWindow + 1) := by
  unfold windowSlice
  have hWpos : 0 < momentumWindow := by norm_num [momentumWindow]
  have hlen : n - momentumWindow < (trades.take n).length := by
    rw [List.length_take, min_eq_left hn.le]
    omega
  rw [List.drop_eq_getElem_cons hlen]
  congr 1
  have hlt : n - momentumWindow < trades.length := by omega
  simp [List.getElem_take, List.getElem?_eq_getElem hlt]

lemma windowSlice_succ_big_tail (trades : List Trade) (n : ℕ) (hn : n < trades.length)
    (hW : momentumWindow ≤ n) :
    windowSlice trades (n + 1)
      = (trades.take n).drop (n - momentumWindow + 1) ++ [(trades[n]?).getD defaultTrade] := by
  unfold windowSlice
  have hWpos : 0 < momentumWindow := by norm_num [momentumWindow]
  rw [take_succ_getD trades n hn]
  rw [List.drop_append_of_le_length
    (by rw [List.length_take, min_eq_left hn.le]; omega)]
  congr 2
  omega

lemma step_recents (bid ask : ℚ) (trend : ℤ) (s : ℚ) (trades : List Trade)
    (st : ClassState) (i : ℕ) :
    (classifyStep bid ask trend s trades st i).recentBuys
      = (if ask ≤ ((trades[i]?).getD defaultTrade).price then st.recentBuys + 1
         else if ((trades[i]?).getD defaultTrade).price ≤ bid then st.recentBuys
         else if momentumWindow ≤ i then
           ((windowSlice trades i).countP (fun u => decide (ask ≤ u.price)) : ℤ)
         else st.recentBuys)
        - (if momentumWindow ≤ i then
            (if ask ≤ ((trades[i - momentumWindow]?).getD defaultTrade).price
              then 1 else 0)
           else 0) ∧
    (classifyStep bid ask trend s trades st i).recentSells
      = (if ask ≤ ((trades[i]?).getD defaultTrade).price then st.recentSells
         else if ((trades[i]?).getD defaultTrade).price ≤ bid then st.recentSells + 1
         else if momentumWindow ≤ i then
           ((windowSlice trades i).countP (fun u => decide (u.price ≤ bid)) : ℤ)
         else st.recentSells)
        - (if momentumWindow ≤ i then
            (if ask ≤ ((trades[i - momentumWindow]?).getD defaultTrade).price then 0
             else if ((trades[i - momentumWindow]?).getD defaultTrade).price ≤ bid
              then 1 else 0)
           else 0) := by
  simp only [classifyStep]
  split_ifs <;> constructor <;> simp

lemma countP_bid_eq_classifiedSell (bid ask : ℚ) (hba : bid < ask) (l : List Trade) :
    l.countP (fun u => decide (u.price ≤ bid))
      = l.countP (fun u => !(decide (ask ≤ u.price)) && decide (u.price ≤ bid)) := by
  apply List.countP_congr
  intro u _
  by_cases h : u.price ≤ bid
  · have hnb : ¬ ask ≤ u.price := not_le.mpr (lt_of_le_of_lt h hba)
    simp [h, hnb]
  · simp [h]

lemma recents_eq_window (bid ask : ℚ) (hba : bid < ask) (trend : ℤ) (s : ℚ)
    (trades : List Trade) :
    ∀ n, n ≤ trades.length →
      (classifyFold bid ask trend s trades n).recentBuys
        = ((windowSlice trades n).countP (fun u => decide (ask ≤ u.price)) : ℤ) ∧
      (classifyFold bid ask trend s trades n).recentSells
        = ((windowSlice trades n).countP
            (fun u => !(decide (ask ≤ u.price)) && decide (u.price ≤ bid)) : ℤ) := by
  intro n
  induction n with
  | zero =>
    intro _
    simp [classifyFold, initClassState, windowSlice]
  | succ n ih =>
    intro h
    have hn : n < trades.length := by omega
    obtain ⟨ihb, ihs⟩ := ih (by omega)
    rw [classifyFold_succ]
    obtain ⟨eb, es⟩ := step_recents bid ask trend s trades
      (classifyFold bid ask trend s trades n) n
    rw [countP_bid_eq_classifiedSell bid ask hba (windowSlice trades n)] at es
    rw [eb, es, ihb, ihs]
    by_cases hW : momentumWindow ≤ n
    · have hhead := windowSlice_succ_big_head trades n hn hW
      have htail := windowSlice_succ_big_tail trades n hn hW
      set t := (trades[n]?).getD defaultTrade with ht
      set told := (trades[n - momentumWindow]?).getD defaultTrade with htold
      set M := (trades.take n).drop (n - momentumWindow + 1) with hM
      have E1 : ((windowSlice trades n).countP (fun u => decide (ask ≤ u.price)) : ℤ)
          = (if ask ≤ told.price then 1 else 0)
            + (M.countP (fun u => decide (ask ≤ u.price)) : ℤ) := by
        rw [hhead, List.countP_cons]
        by_cases h3 : ask ≤ told.price <;> simp [h3] <;> push_cast <;> try ring
      have E2 : ((windowSlice trades n).countP
            (fun u => !(decide (ask ≤ u.price)) && decide (u.price ≤ bid)) : ℤ)
          = (if ask ≤ told.price then 0 else if told.price ≤ bid then 1 else 0)
            + (M.countP
                (fun u => !(decide (ask ≤ u.price)) && decide (u.price ≤ bid)) : ℤ) := by
        rw [hhead, List.countP_cons]
        by_cases h3 : ask ≤ told.price <;> by_cases h4 : told.price ≤ bid <;>
          simp [h3, h4] <;> push_cast <;> try ring
      have E3 : ((windowSlice trades (n + 1)).countP
            (fun u => decide (ask ≤ u.price)) : ℤ)
          = (M.countP (fun u => decide (ask ≤ u.price)) : ℤ)
            + (if ask ≤ t.price then 1 else 0) := by
        rw [htail, List.countP_append, List.countP_cons, List.countP_nil]
        by_cases h1 : ask ≤ t.price <;> simp [h1] <;> push_cast <;> try ring
      have E4 : ((windowSlice trades (n + 1)).countP
            (fun u => !(decide (ask ≤ u.price)) && decide (u.price ≤ bid)) : ℤ)
          = (M.countP
              (fun u => !(decide (ask ≤ u.price)) && decide (u.price ≤ bid)) : ℤ)
            + (if ask ≤ t.price then 0 else if t.price ≤ bid then 1 else 0) := by
        rw [htail, List.countP_append, List.countP_cons, List.countP_nil]
        by_cases h1 : ask ≤ t.price <;> by_cases h2 : t.price ≤ bid <;>
          simp [h1, h2] <;> push_cast <;> try ring
      rw [E1, E2, E3, E4]
      by_cases h1 : ask ≤ t.price <;> by_cases h2 : t.price ≤ bid <;>
        by_cases h3 : ask ≤ told.price <;> by_cases h4 : told.price ≤ bid <;>
        simp only [hW, h1, h2, h3, h4, if_true, if_false] <;> omega
    · have hsmall := windowSlice_succ_small trades n hn (by omega)
      set t := (trades[n]?).getD defaultTrade with ht
      have E3 : ((windowSlice trades (n + 1)).countP
            (fun u => decide (ask ≤ u.price)) : ℤ)
          = ((windowSlice trades n).countP (fun u => decide (ask ≤ u.price)) : ℤ)
            + (if ask ≤ t.price then 1 else 0) := by
        rw [hsmall, List.countP_append, List.countP_cons, List.countP_nil]
        by_cases h1 : ask ≤ t.price <;> simp [h1] <;> push_cast <;> try ring
      have E4 : ((windowSlice trades (n + 1)).countP
            (fun u => !(decide (ask ≤ u.price)) && decide (u.price ≤ bid)) : ℤ)
          = ((windowSlice trades n).countP
              (fun u => !(decide (ask ≤ u.price)) && decide (u.price ≤ bid)) : ℤ)
            + (if ask ≤ t.price then 0 else if t.price ≤ bid then 1 else 0) := by
        rw [hsmall, List.countP_append, List.countP_cons, List.countP_nil]
        by_cases h1 : ask ≤ t.price <;> by_cases h2 : t.price ≤ bid <;>
          simp [h1, h2] <;> push_cast <;> try ring
      rw [E3, E4]
      by_cases h1 : ask ≤ t.price <;> by_cases h2 : t.price ≤ bid <;>
        simp only [hW, h1, h2, if_true, if_false] <;> omega

lemma classifiedBuy_eta (ask : ℚ) :
    classifiedBuy ask = fun u => decide (ask ≤ u.price) := rfl

lemma classifiedSell_eta (bid ask : ℚ) :
    classifiedSell bid ask
      = fun u => !(decide (ask ≤ u.price)) && decide (u.price ≤ bid) := rfl

/-- C8: for every loop position of the classification loop (given an
uncrossed quote, which every mid-spread trade presupposes, and a sentiment
score in [-1, 1]), the clamped buy ratio the mid-spread branch would use lies
in [0, 1]; the `recent_buys`/`recent_sells` it consumes are exactly the
tick-classified buy and sell counts over the trailing momentum window; the
momentum component is their ratio `recent_buys / (recent_buys +
recent_sells)`, defaulting to 1/2 when no trade in the window qualified; and
the sell side of a mid-spread trade is split with ratio exactly
`1 - buyRatio`. -/
theorem C8_ratio_clamp_momentum :
    ∀ (bid ask : ℚ) (trend : ℤ) (s : ℚ) (trades : List Trade) (n : ℕ),
      bid < ask → -1 ≤ s → s ≤ 1 → n ≤ trades.length →
      (0 ≤ usedBuyRatio bid ask trend s trades n ∧
        usedBuyRatio bid ask trend s trades n ≤ 1) ∧
      usedRecentBuys bid ask trend s trades n
        = ((windowSlice trades n).countP (classifiedBuy ask) : ℤ) ∧
      usedRecentSells bid ask trend s trades n
        = ((windowSlice trades n).countP (classifiedSell bid ask) : ℤ) ∧
      (usedRecentBuys bid ask trend s trades n
          + usedRecentSells bid ask trend s trades n = 0 →
        momentumBuyRatio (usedRecentBuys bid ask trend s trades n)
          (usedRecentSells bid ask trend s trades n) = 1 / 2) ∧
      (0 < usedRecentBuys bid ask trend s trades n
          + usedRecentSells bid ask trend s trades n →
        momentumBuyRatio (usedRecentBuys bid ask trend s trades n)
          (usedRecentSells bid ask trend s trades n)
          = (usedRecentBuys bid ask trend s trades n : ℚ)
            / ((usedRecentBuys bid ask trend s trades n : ℚ)
              + (usedRecentSells bid ask trend s trades n : ℚ))) ∧
      (bid < ((trades[n]?).getD defaultTrade).price →
        ((trades[n]?).getD defaultTrade).price < ask →
        (classifyFold bid ask trend s trades (n + 1)).sellVolume
          = (classifyFold bid ask trend s trades n).sellVolume
            + ⌊(((trades[n]?).getD defaultTrade).volume : ℚ)
                * (1 - usedBuyRatio bid ask trend s trades n)⌋) := by
  intro bid ask trend s trades n hba hs1 hs2 hn
  refine ⟨usedBuyRatio_bounds bid ask trend s trades n, ?_, ?_, ?_, ?_, ?_⟩
  · unfold usedRecentBuys
    rw [classifiedBuy_eta]
    by_cases hW : momentumWindow ≤ n
    · rw [if_pos hW]
    · rw [if_neg hW]
      exact (recents_eq_window bid ask hba trend s trades n hn).1
  · unfold usedRecentSells
    rw [classifiedSell_eta]
    by_cases hW : momentumWindow ≤ n
    · rw [if_pos hW]
      exact_mod_cast countP_bid_eq_classifiedSell bid ask hba (windowSlice trades n)
    · rw [if_neg hW]
      exact (recents_eq_window bid ask hba trend s trades n hn).2
  · intro hz
    unfold momentumBuyRatio
    rw [if_neg (by omega)]
  · intro hp
    unfold momentumBuyRatio
    rw [if_pos hp]
  · intro hlo hhi
    exact (fold_succ_midBranch bid ask trend s trades n
      (not_le.mpr hhi) (not_le.mpr hlo)).2

/-- C8, witnessed after one at-ask trade: the used window counts are one buy
and no sell, and the would-be ratio is within [0, 1]. -/
theorem C8_ratio_clamp_momentum_witness :
    (0 ≤ usedBuyRatio 1 2 0 0 [⟨3, 5⟩] 1 ∧ usedBuyRatio 1 2 0 0 [⟨3, 5⟩] 1 ≤ 1) ∧
    usedRecentBuys 1 2 0 0 [⟨3, 5⟩] 1
      = ((windowSlice [⟨3, 5⟩] 1).countP (classifiedBuy 2) : ℤ) ∧
    usedRecentSells 1 2 0 0 [⟨3, 5⟩] 1
      = ((windowSlice [⟨3, 5⟩] 1).countP (classifiedSell 1 2) : ℤ) := by
  have h := C8_ratio_clamp_momentum 1 2 0 0 [⟨3, 5⟩] 1 (by norm_num) (by norm_num)
    (by norm_num) (by norm_num)
  exact ⟨h.1, h.2.1, h.2.2.1⟩

end Weavel
